import Mathlib

/-!
Shallow embedding of the `learning-Go-ch14` repository.

The repository's engineering core is a cancellation-propagating fan-in
worker pair (second file of `src/unnamed/part_000`): two goroutines issue
repeated outbound HTTP calls, coordinated through a single context created
by `context.WithCancelCause`; whichever worker fails first records the
cancellation cause, results are fanned into one unbuffered channel consumed
by a select loop in `main` that also watches for cancellation.

The embedding below models:
  * the cancellation token semantics of Go's `context.WithCancelCause` /
    `context.Cause` (first cancel wins, later cancels are no-ops, a nil
    cause is recorded as `context.Canceled`);
  * the per-iteration decision taken by each worker loop body, translated
    directly from the two goroutine bodies;
  * a labelled small-step interleaving semantics of the whole program
    (two workers, the collector loop, the shared token, the unbuffered
    handoff channel), with Go's `select` modelled nondeterministically:
    whenever several cases are ready, each may be chosen;
  * the context-value helpers (`ContextWithLogLevel` / `LogLevelFromContext`,
    `contextWithGUID` / `guidFromContext`, `ContextWithUser` /
    `UserFromContext`) and the `Timeout` middleware of the first file of
    `src/unnamed/part_000`, of `src/unnamed/part_001` and of
    `src/1-user-management/identity/identity.go`.
-/

/-- Error messages are modelled as strings, mirroring `error.Error()`. -/
abbrev ErrMsg := String

/-- Message recorded by Go's context machinery when `cancel` is called with a
nil cause: `context.Canceled`. -/
def contextCanceledMsg : ErrMsg := "context canceled"

/-- The cancellation token created by `context.WithCancelCause`
(src/unnamed/part_000 line 178): a one-shot cancelled flag plus the recorded
cause. -/
structure Token where
  cancelled : Bool
  cause : Option ErrMsg
deriving Repr, DecidableEq

/-- The token before any cancel call. -/
def Token.fresh : Token := ⟨false, none⟩

/-- Semantics of the `context.CancelCauseFunc` returned by
`context.WithCancelCause`: the first call flips the state to cancelled and
records its cause (a nil cause is recorded as `context.Canceled`); every
later call is a no-op. -/
def Token.cancel (t : Token) (c : Option ErrMsg) : Token :=
  if t.cancelled then t else { cancelled := true, cause := some (c.getD contextCanceledMsg) }

/-- Semantics of `context.Cause`: the recorded cause once cancelled. -/
def Token.contextCause (t : Token) : Option ErrMsg := t.cause

/-- Outcome of one `makeRequest` call (src/unnamed/part_000 lines 165-171):
either a transport failure or a response carrying a status code and the
`date` response header. -/
inductive CallResult
  | failure (e : ErrMsg)
  | response (status : Nat) (date : String)
deriving Repr, DecidableEq

/-- What a worker loop body decides to do after its call returns: cancel the
shared token with a cause and return, or proceed to the publish select with a
message. -/
inductive WorkerAction
  | cancelStop (cause : ErrMsg)
  | publish (msg : String)
deriving Repr, DecidableEq

/-- Loop body of the status goroutine (src/unnamed/part_000 lines 199-214):
a transport failure cancels with the wrapped error, an HTTP 500 cancels with
"bad status", any other response proceeds to publish the constant success
message. -/
def statusIteration : CallResult → WorkerAction
  | .failure e => .cancelStop ("in status goroutine: " ++ e)
  | .response st _ => if st = 500 then .cancelStop "bad status" else .publish "success from status"

/-- Loop body of the delay goroutine (src/unnamed/part_000 lines 232-241):
a transport failure is printed and cancels with the wrapped error; any
response, whatever its status code, proceeds to publish the success message
built from the `date` header. -/
def delayIteration : CallResult → WorkerAction
  | .failure e => .cancelStop ("in delay goroutine: " ++ e)
  | .response _ d => .publish ("success from delay: " ++ d)

/-- Common shape of the two loop bodies, parameterized by whether the HTTP
500 check is performed, the cause tag identifying the worker, and the
success-message constructor (a function of the `date` header). -/
def genericIteration (check500 : Bool) (errTag : String) (mkMsg : String → String) :
    CallResult → WorkerAction
  | .failure e => .cancelStop (errTag ++ e)
  | .response st d =>
      if check500 = true ∧ st = 500 then .cancelStop "bad status" else .publish (mkMsg d)

/-- Program counter of a worker goroutine. `call` is the top of the `for`
loop (about to run `makeRequest`); `gotResult m` is the program point after
the error and status branches, before entering the publish `select`;
`publish m` is blocked at the `select` between `ch <- m` and `<-ctx.Done()`;
`sleep` is the `time.Sleep` of the status goroutine; `stopped` is after
`return`. -/
inductive WorkerPC
  | call
  | gotResult (msg : String)
  | publish (msg : String)
  | sleep
  | stopped
deriving Repr, DecidableEq

/-- Local state of a worker: its program counter and the number of
`makeRequest` calls it has issued so far. -/
structure WorkerState where
  pc : WorkerPC
  iter : Nat
deriving Repr, DecidableEq

/-- Program counter of the collector select loop in `main`
(src/unnamed/part_000 lines 250-259). -/
inductive CollectorPC
  | loop
  | done
deriving Repr, DecidableEq

/-- Global state: the shared token, the two workers, the collector, the
results the collector has received (printed) so far, and the cause the
collector printed when it observed cancellation. -/
structure Sys where
  token : Token
  status : WorkerState
  delay : WorkerState
  col : CollectorPC
  received : List String
  colCause : Option ErrMsg
deriving Repr, DecidableEq

/-- The state right after `main` spawns both goroutines. -/
def Sys.init : Sys := ⟨Token.fresh, ⟨.call, 0⟩, ⟨.call, 0⟩, .loop, [], none⟩

/-- Result of `makeRequest` at one call: the outbound call is bound to the
shared token, so once the token is cancelled the HTTP client fails with the
context error; otherwise the environment `env` supplies the network outcome
of the worker's i-th call. -/
def callOutcome (t : Token) (env : Nat → CallResult) (i : Nat) : CallResult :=
  if t.cancelled = true then .failure contextCanceledMsg else env i

/-- Names for the atomic steps of the interleaving semantics, identifying
which goroutine moves and which select branch it commits to. -/
inductive Label
  | statusCall
  | statusToPublish
  | statusSend
  | statusDrop
  | statusWake
  | delayCall
  | delayToPublish
  | delaySend
  | delayDrop
  | colCancel
deriving Repr, DecidableEq

/-- Labelled small-step interleaving semantics of the program, parameterized
by the two workers' network environments. Channel handoff (`statusSend`,
`delaySend`) is a rendezvous between a worker blocked at its publish select
and the collector at its select; a select with several ready cases may
commit to any of them, so `statusSend` and `statusDrop` (and the collector's
receive versus `colCancel`) are both enabled when their guards hold. -/
inductive Step (envS envD : Nat → CallResult) : Label → Sys → Sys → Prop
  | statusCallCancel (s : Sys) (c : ErrMsg)
      (hpc : s.status.pc = .call)
      (hact : statusIteration (callOutcome s.token envS s.status.iter) = .cancelStop c) :
      Step envS envD .statusCall s
        { s with token := s.token.cancel (some c),
                 status := ⟨.stopped, s.status.iter + 1⟩ }
  | statusCallOk (s : Sys) (m : String)
      (hpc : s.status.pc = .call)
      (hact : statusIteration (callOutcome s.token envS s.status.iter) = .publish m) :
      Step envS envD .statusCall s
        { s with status := ⟨.gotResult m, s.status.iter + 1⟩ }
  | statusToPublish (s : Sys) (m : String)
      (hpc : s.status.pc = .gotResult m) :
      Step envS envD .statusToPublish s
        { s with status := ⟨.publish m, s.status.iter⟩ }
  | statusSend (s : Sys) (m : String)
      (hpc : s.status.pc = .publish m) (hcol : s.col = .loop) :
      Step envS envD .statusSend s
        { s with status := ⟨.sleep, s.status.iter⟩,
                 received := s.received ++ [m] }
  | statusDrop (s : Sys) (m : String)
      (hpc : s.status.pc = .publish m) (hc : s.token.cancelled = true) :
      Step envS envD .statusDrop s
        { s with status := ⟨.sleep, s.status.iter⟩ }
  | statusWake (s : Sys)
      (hpc : s.status.pc = .sleep) :
      Step envS envD .statusWake s
        { s with status := ⟨.call, s.status.iter⟩ }
  | delayCallCancel (s : Sys) (c : ErrMsg)
      (hpc : s.delay.pc = .call)
      (hact : delayIteration (callOutcome s.token envD s.delay.iter) = .cancelStop c) :
      Step envS envD .delayCall s
        { s with token := s.token.cancel (some c),
                 delay := ⟨.stopped, s.delay.iter + 1⟩ }
  | delayCallOk (s : Sys) (m : String)
      (hpc : s.delay.pc = .call)
      (hact : delayIteration (callOutcome s.token envD s.delay.iter) = .publish m) :
      Step envS envD .delayCall s
        { s with delay := ⟨.gotResult m, s.delay.iter + 1⟩ }
  | delayToPublish (s : Sys) (m : String)
      (hpc : s.delay.pc = .gotResult m) :
      Step envS envD .delayToPublish s
        { s with delay := ⟨.publish m, s.delay.iter⟩ }
  | delaySend (s : Sys) (m : String)
      (hpc : s.delay.pc = .publish m) (hcol : s.col = .loop) :
      Step envS envD .delaySend s
        { s with delay := ⟨.call, s.delay.iter⟩,
                 received := s.received ++ [m] }
  | delayDrop (s : Sys) (m : String)
      (hpc : s.delay.pc = .publish m) (hc : s.token.cancelled = true) :
      Step envS envD .delayDrop s
        { s with delay := ⟨.call, s.delay.iter⟩ }
  | colCancel (s : Sys)
      (hcol : s.col = .loop) (hc : s.token.cancelled = true) :
      Step envS envD .colCancel s
        { s with col := .done, colCause := s.token.contextCause }

/-- Reachable states of the program from the post-spawn initial state. -/
inductive Reach (envS envD : Nat → CallResult) : Sys → Prop
  | init : Reach envS envD Sys.init
  | step {s s' : Sys} {l : Label} (h : Reach envS envD s)
      (hs : Step envS envD l s s') : Reach envS envD s'

/-- Collector invariant: once the collector has observed cancellation, the
token is cancelled and the cause it printed is the token's recorded cause. -/
def ColInv (s : Sys) : Prop :=
  s.col = .done → s.token.cancelled = true ∧ s.colCause = s.token.contextCause

/-- Network environment where the status worker's calls always return
HTTP 200. -/
def envS0 : Nat → CallResult := fun _ => .response 200 "d"

/-- Network environment where every call fails with transport error
"boom". -/
def envD0 : Nat → CallResult := fun _ => .failure "boom"

/-- Cause recorded when the delay goroutine's call fails with "boom". -/
def delayCause : ErrMsg := "in delay goroutine: " ++ "boom"

/-- Cause recorded when the status goroutine's call fails with "boom". -/
def statusCause : ErrMsg := "in status goroutine: " ++ "boom"

/-- Trace state: the initial state. -/
def trace0 : Sys := Sys.init

/-- Trace state: the status worker's first call returned HTTP 200, it now
holds the result just before entering the publish select. -/
def trace1 : Sys :=
  ⟨Token.fresh, ⟨.gotResult "success from status", 1⟩, ⟨.call, 0⟩, .loop, [], none⟩

/-- Trace state: the delay worker's first call failed with "boom", so it
cancelled the shared token with its cause and stopped. -/
def trace2 : Sys :=
  ⟨⟨true, some delayCause⟩, ⟨.gotResult "success from status", 1⟩, ⟨.stopped, 1⟩,
    .loop, [], none⟩

/-- Trace state: after cancellation, the status worker enters its publish
select (its publish attempt begins after the cancellation instant). -/
def trace3 : Sys :=
  ⟨⟨true, some delayCause⟩, ⟨.publish "success from status", 1⟩, ⟨.stopped, 1⟩,
    .loop, [], none⟩

/-- Trace state: the collector, whose select also had the receive case ready,
committed to the receive: the result is delivered after cancellation. -/
def trace4 : Sys :=
  ⟨⟨true, some delayCause⟩, ⟨.sleep, 1⟩, ⟨.stopped, 1⟩,
    .loop, ["success from status"], none⟩

/-- Variant of `trace2` in which the collector has already observed
cancellation (printed the cause) while the status worker still holds its
result. -/
def trace2c : Sys :=
  ⟨⟨true, some delayCause⟩, ⟨.gotResult "success from status", 1⟩, ⟨.stopped, 1⟩,
    .done, [], some delayCause⟩

/-- Successor of `trace2c` where the status worker entered its publish
select. -/
def trace3c : Sys :=
  ⟨⟨true, some delayCause⟩, ⟨.publish "success from status", 1⟩, ⟨.stopped, 1⟩,
    .done, [], some delayCause⟩

/-- Shutdown trace state: the status worker failed first ("boom") and
stopped, having cancelled the token. -/
def w1 : Sys :=
  ⟨⟨true, some statusCause⟩, ⟨.stopped, 1⟩, ⟨.call, 0⟩, .loop, [], none⟩

/-- Shutdown trace state: the delay worker's next call failed on the
cancelled token; its cancel was a no-op and it stopped. -/
def w2 : Sys :=
  ⟨⟨true, some statusCause⟩, ⟨.stopped, 1⟩, ⟨.stopped, 1⟩, .loop, [], none⟩

/-- Shutdown trace state: the collector observed cancellation and printed
the recorded cause; both workers are stopped. -/
def w3 : Sys :=
  ⟨⟨true, some statusCause⟩, ⟨.stopped, 1⟩, ⟨.stopped, 1⟩, .done, [], some statusCause⟩

/-- Go's `Level` is a defined string type (src/unnamed/part_000 line 27). -/
abbrev Level := String

/-- Level constant `Debug` (src/unnamed/part_000 line 30). -/
def Debug : Level := "debug"

/-- Level constant `Info` (src/unnamed/part_000 line 31). -/
def Info : Level := "info"

/-- The distinct unexported context-key types of the repository. Go compares
context keys as (dynamic type, value) pairs, so the `key` constants of
`keyType` (part_000), `guidKey` (part_001) and `userKey` (identity.go), and
the empty struct `userKeyStruct{}`, are four distinct keys even though three
share the underlying value 1. -/
inductive CtxKey
  | logLevelKey
  | guidKeyK
  | userKeyK
  | userKeyStructK
deriving Repr, DecidableEq

/-- A value stored in a context: Go stores `any`; the repository stores
either a `Level` or a `string`, and extraction type-asserts. -/
inductive CtxVal
  | levelVal (l : Level)
  | strVal (s : String)
deriving Repr, DecidableEq

/-- Go context chain: `context.Background()`, `context.WithValue` and
`context.WithTimeout` derivations. Value lookup walks the chain from the
most recent derivation. -/
inductive Context
  | background
  | withValue (parent : Context) (k : CtxKey) (v : CtxVal)
  | withTimeout (parent : Context) (ms : Nat)
deriving Repr, DecidableEq

/-- Semantics of `ctx.Value(k)`: the most recently stored value for `k`,
or nil. -/
def Context.value : Context → CtxKey → Option CtxVal
  | .background, _ => none
  | .withValue p k v, k' => if k' = k then some v else p.value k'
  | .withTimeout p _, k' => p.value k'

/-- Go type assertion `v, ok := x.(Level)`: the zero value with `false`
when `x` is nil or not a `Level`. -/
def asLevel : Option CtxVal → Level × Bool
  | some (.levelVal l) => (l, true)
  | _ => ("", false)

/-- Go type assertion `v, ok := x.(string)`: the zero value with `false`
when `x` is nil or not a `string`. -/
def asString : Option CtxVal → String × Bool
  | some (.strVal s) => (s, true)
  | _ => ("", false)

/-- ContextWithLogLevel (src/unnamed/part_000 lines 110-113). -/
def ContextWithLogLevel (ctx : Context) (l : Level) : Context :=
  .withValue ctx .logLevelKey (.levelVal l)

/-- LogLevelFromContext (src/unnamed/part_000 lines 104-108). -/
def LogLevelFromContext (ctx : Context) : Level × Bool :=
  asLevel (ctx.value .logLevelKey)

/-- contextWithGUID (src/unnamed/part_001 lines 28-30). -/
def contextWithGUID (ctx : Context) (guid : String) : Context :=
  .withValue ctx .guidKeyK (.strVal guid)

/-- guidFromContext (src/unnamed/part_001 lines 33-36). -/
def guidFromContext (ctx : Context) : String × Bool :=
  asString (ctx.value .guidKeyK)

/-- ContextWithUser (src/1-user-management/identity/identity.go
lines 130-132). -/
def ContextWithUser (ctx : Context) (user : String) : Context :=
  .withValue ctx .userKeyK (.strVal user)

/-- UserFromContext (src/1-user-management/identity/identity.go
lines 135-138). -/
def UserFromContext (ctx : Context) : String × Bool :=
  asString (ctx.value .userKeyK)

/-- An HTTP request: its context plus all its other fields, kept abstract as
a type parameter so that "no field differs" is expressible as plain
equality. -/
structure Request (ρ : Type) where
  ctx : Context
  rest : ρ

/-- Timeout middleware (src/unnamed/part_000 lines 142-153): the handler it
produces reads the request's context, derives a timeout context from it
(which is cancelled on exit by the deferred cancel), and then calls the
wrapped handler with the request `r` unchanged: the derived context is never
attached to the request. -/
def Timeout {ρ σ : Type} (ms : Nat) (h : Request ρ → σ) : Request ρ → σ :=
  fun r =>
    let ctx := r.ctx
    let _ctx := Context.withTimeout ctx ms
    h r

/-! ## Helper lemmas -/

theorem Token.cancel_of_cancelled (t : Token) (c : Option ErrMsg)
    (h : t.cancelled = true) : t.cancel c = t := by
  simp [Token.cancel, h]

theorem Token.cancel_cancelled (t : Token) (c : Option ErrMsg) :
    (t.cancel c).cancelled = true := by
  by_cases h : t.cancelled = true
  · simp [Token.cancel, h]
  · simp [Token.cancel, h]

theorem Token.foldl_cancel_of_cancelled (cs : List (Option ErrMsg)) (t : Token)
    (h : t.cancelled = true) : cs.foldl Token.cancel t = t := by
  induction cs with
  | nil => rfl
  | cons c cs ih => simp [List.foldl_cons, Token.cancel_of_cancelled t c h, ih]

theorem step_done_frozen {envS envD : Nat → CallResult} {l : Label} {s s' : Sys}
    (h : Step envS envD l s s') (hdone : s.col = .done) :
    s'.col = .done ∧ s'.received = s.received := by
  cases h with
  | statusCallCancel s c hpc hact => exact ⟨hdone, rfl⟩
  | statusCallOk s m hpc hact => exact ⟨hdone, rfl⟩
  | statusToPublish s m hpc => exact ⟨hdone, rfl⟩
  | statusSend s m hpc hcol => simp [hdone] at hcol
  | statusDrop s m hpc hc => exact ⟨hdone, rfl⟩
  | statusWake s hpc => exact ⟨hdone, rfl⟩
  | delayCallCancel s c hpc hact => exact ⟨hdone, rfl⟩
  | delayCallOk s m hpc hact => exact ⟨hdone, rfl⟩
  | delayToPublish s m hpc => exact ⟨hdone, rfl⟩
  | delaySend s m hpc hcol => simp [hdone] at hcol
  | delayDrop s m hpc hc => exact ⟨hdone, rfl⟩
  | colCancel s hcol hc => simp [hdone] at hcol

theorem step_inv {envS envD : Nat → CallResult} {l : Label} {s s' : Sys}
    (h : Step envS envD l s s') (hi : ColInv s) : ColInv s' := by
  cases h with
  | statusCallCancel s c hpc hact =>
      intro hdone
      obtain ⟨hc, hcc⟩ := hi hdone
      simp only [Token.cancel_of_cancelled s.token (some c) hc]
      exact ⟨hc, hcc⟩
  | statusCallOk s m hpc hact => exact hi
  | statusToPublish s m hpc => exact hi
  | statusSend s m hpc hcol => exact hi
  | statusDrop s m hpc hc => exact hi
  | statusWake s hpc => exact hi
  | delayCallCancel s c hpc hact =>
      intro hdone
      obtain ⟨hc, hcc⟩ := hi hdone
      simp only [Token.cancel_of_cancelled s.token (some c) hc]
      exact ⟨hc, hcc⟩
  | delayCallOk s m hpc hact => exact hi
  | delayToPublish s m hpc => exact hi
  | delaySend s m hpc hcol => exact hi
  | delayDrop s m hpc hc => exact hi
  | colCancel s hcol hc => exact fun _ => ⟨hc, rfl⟩

theorem reach_inv {envS envD : Nat → CallResult} {s : Sys}
    (h : Reach envS envD s) : ColInv s := by
  induction h with
  | init => intro hdone; simp [Sys.init] at hdone
  | step h hs ih => exact step_inv hs ih

/-! ## Claims -/

/-- C1: for every sequence of cancel calls applied to a fresh token in the
synchronization order, the result equals the effect of the first call alone:
the token is cancelled exactly once, the recorded cause is the first call's
cause, and later calls (with any cause, including nil) change nothing. -/
theorem token_first_cause_wins (c : Option ErrMsg) (cs : List (Option ErrMsg)) :
    (c :: cs).foldl Token.cancel Token.fresh = Token.fresh.cancel c ∧
    ((c :: cs).foldl Token.cancel Token.fresh).cancelled = true ∧
    (∀ e, c = some e →
      ((c :: cs).foldl Token.cancel Token.fresh).contextCause = some e) := by
  have hfirst : (c :: cs).foldl Token.cancel Token.fresh = Token.fresh.cancel c := by
    rw [List.foldl_cons]
    exact Token.foldl_cancel_of_cancelled cs _ (Token.cancel_cancelled Token.fresh c)
  refine ⟨hfirst, ?_, ?_⟩
  · rw [hfirst]; exact Token.cancel_cancelled Token.fresh c
  · intro e he
    rw [hfirst, he]
    simp [Token.fresh, Token.cancel, Token.contextCause]

/-- Witness for C1 at a concrete sequence: first cancel with cause "boom",
then a later cancel with a different cause and one with nil. -/
theorem token_first_cause_wins_witness :
    ([some "boom", some "late", none].foldl Token.cancel Token.fresh).contextCause
      = some "boom" :=
  (token_first_cause_wins (some "boom") [some "late", none]).2.2 "boom" rfl

/-- C2 counterexample: a legal execution in which the status worker obtains
a normal result, the delay worker then cancels the token, and the publish —
although cancellation occurred before it was accepted — is still accepted
and the result delivered to the collector, so "the result is dropped (never
delivered)" fails. -/
theorem publish_race_not_forced_drop :
    trace0 = Sys.init ∧
    Step envS0 envD0 .statusCall trace0 trace1 ∧
    Step envS0 envD0 .delayCall trace1 trace2 ∧
    Step envS0 envD0 .statusToPublish trace2 trace3 ∧
    Step envS0 envD0 .statusSend trace3 trace4 ∧
    trace2.token.cancelled = true ∧
    trace2.status.pc = .gotResult "success from status" ∧
    trace4.received = ["success from status"] := by
  refine ⟨rfl, ?_, ?_, ?_, ?_, rfl, rfl, rfl⟩
  · exact Step.statusCallOk trace0 "success from status" rfl rfl
  · exact Step.delayCallCancel trace1 delayCause rfl rfl
  · exact Step.statusToPublish trace2 "success from status" rfl
  · exact Step.statusSend trace3 "success from status" rfl rfl

/-- C2 as amended: the publish attempt is raced against cancellation, and
when the worker commits to the cancellation branch of its select the result
is dropped (the collector's received list is not extended) and the worker,
continuing its loop, fails its next outbound call on the cancelled token
and terminates Stopped, its final cancel being a no-op that leaves the
token — hence the recorded cause — unchanged; but cancellation occurring
before the publish is accepted does not by itself force the drop. -/
theorem worker_drop_branch_stops (envS envD : Nat → CallResult) :
    (∀ s s', Step envS envD .statusDrop s s' →
      s'.received = s.received ∧ s'.status.pc = .sleep ∧ s'.token = s.token) ∧
    (∀ s s', Step envS envD .delayDrop s s' →
      s'.received = s.received ∧ s'.delay.pc = .call ∧ s'.token = s.token) ∧
    (∀ s m, s.status.pc = .publish m → s.token.cancelled = true →
      ∃ s1 s2 s3, Step envS envD .statusDrop s s1 ∧ Step envS envD .statusWake s1 s2 ∧
        Step envS envD .statusCall s2 s3 ∧
        s3.status.pc = .stopped ∧ s3.token = s.token) ∧
    (∀ s m, s.delay.pc = .publish m → s.token.cancelled = true →
      ∃ s1 s2, Step envS envD .delayDrop s s1 ∧ Step envS envD .delayCall s1 s2 ∧
        s2.delay.pc = .stopped ∧ s2.token = s.token) := by
  refine ⟨?_, ?_, ?_, ?_⟩
  · intro s s' h
    cases h with
    | statusDrop s m hpc hc => exact ⟨rfl, rfl, rfl⟩
  · intro s s' h
    cases h with
    | delayDrop s m hpc hc => exact ⟨rfl, rfl, rfl⟩
  · intro s m hpc hc
    have hact : statusIteration (callOutcome s.token envS s.status.iter)
        = .cancelStop ("in status goroutine: " ++ contextCanceledMsg) := by
      simp [callOutcome, hc, statusIteration]
    exact ⟨{ s with status := ⟨.sleep, s.status.iter⟩ },
      { s with status := ⟨.call, s.status.iter⟩ },
      { s with token := s.token.cancel (some ("in status goroutine: " ++ contextCanceledMsg)),
               status := ⟨.stopped, s.status.iter + 1⟩ },
      Step.statusDrop s m hpc hc,
      Step.statusWake _ rfl,
      Step.statusCallCancel _ _ rfl hact,
      rfl,
      Token.cancel_of_cancelled s.token _ hc⟩
  · intro s m hpc hc
    have hact : delayIteration (callOutcome s.token envD s.delay.iter)
        = .cancelStop ("in delay goroutine: " ++ contextCanceledMsg) := by
      simp [callOutcome, hc, delayIteration]
    exact ⟨{ s with delay := ⟨.call, s.delay.iter⟩ },
      { s with token := s.token.cancel (some ("in delay goroutine: " ++ contextCanceledMsg)),
               delay := ⟨.stopped, s.delay.iter + 1⟩ },
      Step.delayDrop s m hpc hc,
      Step.delayCallCancel _ _ rfl hact,
      rfl,
      Token.cancel_of_cancelled s.token _ hc⟩

/-- Witness for the amended C2 at a concrete state: the status worker holds
its result at the publish select of `trace3` with the token cancelled. -/
theorem worker_drop_branch_stops_witness :
    trace3.status.pc = WorkerPC.publish "success from status" ∧
    trace3.token.cancelled = true ∧
    (∃ s1 s2 s3, Step envS0 envD0 Label.statusDrop trace3 s1 ∧
      Step envS0 envD0 Label.statusWake s1 s2 ∧
      Step envS0 envD0 Label.statusCall s2 s3 ∧
      s3.status.pc = WorkerPC.stopped ∧ s3.token = trace3.token) :=
  ⟨rfl, rfl,
    (worker_drop_branch_stops envS0 envD0).2.2.1 trace3 "success from status" rfl rfl⟩

/-- C3 counterexample: the delay goroutine performs no status-code check, so
on an HTTP 500 response it publishes a success message instead of cancelling
the token — "for every worker ... HTTP 500 ... cancels" fails on the delay
worker. -/
theorem delay_ignores_bad_status :
    delayIteration (CallResult.response 500 "x")
      = WorkerAction.publish ("success from delay: " ++ "x") ∧
    delayIteration (CallResult.response 500 "x") ≠ WorkerAction.cancelStop "bad status" := by
  refine ⟨rfl, ?_⟩
  simp [delayIteration]

/-- C3 as amended: a transport failure makes either worker cancel the shared
token with a descriptive worker-identifying cause and terminate without
retrying; the application-level HTTP 500 trigger applies to the status worker
only. Whenever a worker's loop body decides to cancel, its step leaves the
worker Stopped with the token cancelled, and, if it was the first to cancel,
with its cause recorded. -/
theorem failure_triggers_cancel (envS envD : Nat → CallResult) :
    (∀ e, statusIteration (.failure e) = .cancelStop ("in status goroutine: " ++ e)) ∧
    (∀ d, statusIteration (.response 500 d) = .cancelStop "bad status") ∧
    (∀ e, delayIteration (.failure e) = .cancelStop ("in delay goroutine: " ++ e)) ∧
    (∀ s s' c, Step envS envD .statusCall s s' →
      statusIteration (callOutcome s.token envS s.status.iter) = .cancelStop c →
      s'.status.pc = .stopped ∧ s'.token.cancelled = true ∧
      (s.token.cancelled = false → s'.token.contextCause = some c)) ∧
    (∀ s s' c, Step envS envD .delayCall s s' →
      delayIteration (callOutcome s.token envD s.delay.iter) = .cancelStop c →
      s'.delay.pc = .stopped ∧ s'.token.cancelled = true ∧
      (s.token.cancelled = false → s'.token.contextCause = some c)) := by
  refine ⟨fun e => rfl, fun d => by simp [statusIteration], fun e => rfl, ?_, ?_⟩
  · intro s s' c h hdec
    cases h with
    | statusCallCancel s c' hpc hact =>
        rw [hact] at hdec
        injection hdec with hcc
        subst hcc
        refine ⟨rfl, Token.cancel_cancelled _ _, ?_⟩
        intro hf
        simp [Token.cancel, hf, Token.contextCause]
    | statusCallOk s m hpc hact =>
        rw [hact] at hdec
        exact absurd hdec (by simp)
  · intro s s' c h hdec
    cases h with
    | delayCallCancel s c' hpc hact =>
        rw [hact] at hdec
        injection hdec with hcc
        subst hcc
        refine ⟨rfl, Token.cancel_cancelled _ _, ?_⟩
        intro hf
        simp [Token.cancel, hf, Token.contextCause]
    | delayCallOk s m hpc hact =>
        rw [hact] at hdec
        exact absurd hdec (by simp)

/-- Witness for the amended C3: the status worker's first call fails with
"boom" from the failing environment; its step stops it, cancels the token
and records the descriptive cause. -/
theorem failure_triggers_cancel_witness :
    statusIteration (callOutcome Sys.init.token envD0 Sys.init.status.iter)
      = WorkerAction.cancelStop statusCause ∧
    Step envD0 envD0 Label.statusCall Sys.init w1 ∧
    (w1.status.pc = WorkerPC.stopped ∧ w1.token.cancelled = true ∧
      (Sys.init.token.cancelled = false → w1.token.contextCause = some statusCause)) :=
  ⟨rfl, Step.statusCallCancel Sys.init statusCause rfl rfl,
    (failure_triggers_cancel envD0 envD0).2.2.2.1 Sys.init w1 statusCause
      (Step.statusCallCancel Sys.init statusCause rfl rfl) rfl⟩

/-- C4 counterexample: on the same HTTP 500 response the two loop bodies
behave differently — the status loop cancels with "bad status", the delay
loop publishes — so the loops are not equal as functions up to call target
and interval alone. -/
theorem loops_differ_on_bad_status :
    statusIteration (CallResult.response 500 "x") = WorkerAction.cancelStop "bad status" ∧
    delayIteration (CallResult.response 500 "x")
      = WorkerAction.publish ("success from delay: " ++ "x") := by
  constructor
  · simp [statusIteration]
  · rfl

/-- C4 as amended: the two loop bodies are instances of one common shape,
but only up to three parameters — the worker-identifying cause tag, the
success-message constructor, and whether the HTTP 500 check is performed
(status: yes, delay: no); additionally only the status loop sleeps between
iterations (`WorkerPC.sleep` is reached only by status steps). -/
theorem loops_generic_shape :
    statusIteration = genericIteration true "in status goroutine: "
      (fun _ => "success from status") ∧
    delayIteration = genericIteration false "in delay goroutine: "
      (fun d => "success from delay: " ++ d) := by
  constructor
  · funext r
    cases r with
    | failure e => rfl
    | response st d =>
        by_cases h : st = 500
        · simp [statusIteration, genericIteration, h]
        · simp [statusIteration, genericIteration, h]
  · funext r
    cases r with
    | failure e => rfl
    | response st d => simp [delayIteration, genericIteration]

/-- C5 counterexample: a reachable execution in which the token is cancelled
by the delay worker, the status worker's publish then begins (it enters its
select only after the cancellation instant), and the collector — whose
select also had the cancellation case ready — nevertheless receives the
result, refuting "the collector never receives a result whose publish began
after the cancellation instant". -/
theorem late_delivery_after_cancel :
    Reach envS0 envD0 trace4 ∧
    Step envS0 envD0 .delayCall trace1 trace2 ∧
    trace2.token.cancelled = true ∧
    Step envS0 envD0 .statusToPublish trace2 trace3 ∧
    Step envS0 envD0 .statusSend trace3 trace4 ∧
    trace4.received = ["success from status"] ∧
    trace4.col = CollectorPC.loop := by
  have h01 : Step envS0 envD0 .statusCall trace0 trace1 :=
    Step.statusCallOk trace0 "success from status" rfl rfl
  have h12 : Step envS0 envD0 .delayCall trace1 trace2 :=
    Step.delayCallCancel trace1 delayCause rfl rfl
  have h23 : Step envS0 envD0 .statusToPublish trace2 trace3 :=
    Step.statusToPublish trace2 "success from status" rfl
  have h34 : Step envS0 envD0 .statusSend trace3 trace4 :=
    Step.statusSend trace3 "success from status" rfl rfl
  refine ⟨?_, h12, rfl, h23, h34, rfl, rfl⟩
  exact Reach.step (Reach.step (Reach.step (Reach.step Reach.init h01) h12) h23) h34

/-- C5 as amended: once the collector has observed cancellation (taken the
`ctx.Done()` branch and left its loop) it never receives another result:
every step from a state where the collector is done leaves it done and the
received list unchanged. Results racing with cancellation — even those whose
publish began after the cancellation instant — may however still be
delivered before that observation. -/
theorem no_receive_after_observation (envS envD : Nat → CallResult) (l : Label)
    (s s' : Sys) (h : Step envS envD l s s') (hdone : s.col = .done) :
    s'.col = .done ∧ s'.received = s.received :=
  step_done_frozen h hdone

/-- Witness for the amended C5: from `trace2c` (collector already done, the
status worker still active) the status worker's step leaves the collector
done with nothing new received. -/
theorem no_receive_after_observation_witness :
    trace2c.col = CollectorPC.done ∧
    Step envS0 envD0 Label.statusToPublish trace2c trace3c ∧
    (trace3c.col = CollectorPC.done ∧ trace3c.received = trace2c.received) :=
  ⟨rfl, Step.statusToPublish trace2c "success from status" rfl,
    no_receive_after_observation envS0 envD0 .statusToPublish trace2c trace3c
      (Step.statusToPublish trace2c "success from status" rfl) rfl⟩

/-- C6: in every reachable state in which the collector has observed
cancellation — in particular after both workers have fully terminated, when
`main` prints the cause again after `wg.Wait()` — the cause the collector
printed equals the token's recorded cause: the recorded cause does not
change between the two observations. -/
theorem final_cause_matches_collector (envS envD : Nat → CallResult) (s : Sys)
    (h : Reach envS envD s) (hdone : s.col = .done)
    (hstat : s.status.pc = .stopped) (hdel : s.delay.pc = .stopped) :
    s.colCause = s.token.contextCause :=
  (reach_inv h hdone).2

/-- Reachability of the fully terminated shutdown state `w3` when every call
of both workers fails. -/
theorem reach_w3 : Reach envD0 envD0 w3 :=
  Reach.step
    (Reach.step
      (Reach.step Reach.init
        (Step.statusCallCancel Sys.init statusCause rfl rfl))
      (Step.delayCallCancel w1 ("in delay goroutine: " ++ contextCanceledMsg) rfl rfl))
    (Step.colCancel w2 rfl rfl)

/-- Witness for C6 at the concrete shutdown state `w3`: both workers are
stopped, the collector is done, and the printed causes agree. -/
theorem final_cause_matches_collector_witness :
    Reach envD0 envD0 w3 ∧ w3.col = CollectorPC.done ∧
    w3.status.pc = WorkerPC.stopped ∧ w3.delay.pc = WorkerPC.stopped ∧
    w3.colCause = w3.token.contextCause :=
  ⟨reach_w3, rfl, rfl, rfl,
    final_cause_matches_collector envD0 envD0 w3 reach_w3 rfl rfl rfl⟩

/-- C7: if a worker's outbound call fails on every invocation, then any call
step that worker takes — in particular its first — leaves the shared token
cancelled and the worker stopped: the group is cancelled within one
iteration of that worker's loop. -/
theorem liveness_on_failure (envS envD : Nat → CallResult) :
    ((∀ i, ∃ e, envS i = CallResult.failure e) →
      ∀ s s', Step envS envD .statusCall s s' →
        s'.token.cancelled = true ∧ s'.status.pc = .stopped) ∧
    ((∀ i, ∃ e, envD i = CallResult.failure e) →
      ∀ s s', Step envS envD .delayCall s s' →
        s'.token.cancelled = true ∧ s'.delay.pc = .stopped) := by
  constructor
  · intro hf s s' h
    cases h with
    | statusCallCancel s c hpc hact => exact ⟨Token.cancel_cancelled _ _, rfl⟩
    | statusCallOk s m hpc hact =>
        obtain ⟨e, he⟩ := hf s.status.iter
        by_cases hc : s.token.cancelled = true
        · simp [callOutcome, hc, statusIteration] at hact
        · simp [callOutcome, hc, he, statusIteration] at hact
  · intro hf s s' h
    cases h with
    | delayCallCancel s c hpc hact => exact ⟨Token.cancel_cancelled _ _, rfl⟩
    | delayCallOk s m hpc hact =>
        obtain ⟨e, he⟩ := hf s.delay.iter
        by_cases hc : s.token.cancelled = true
        · simp [callOutcome, hc, delayIteration] at hact
        · simp [callOutcome, hc, he, delayIteration] at hact

/-- Witness for C7: with the always-failing environment the status worker's
first call step from the initial state cancels the token and stops the
worker. -/
theorem liveness_on_failure_witness :
    (∀ i, ∃ e, envD0 i = CallResult.failure e) ∧
    Step envD0 envD0 Label.statusCall Sys.init w1 ∧
    (w1.token.cancelled = true ∧ w1.status.pc = WorkerPC.stopped) :=
  ⟨fun _ => ⟨"boom", rfl⟩,
    Step.statusCallCancel Sys.init statusCause rfl rfl,
    (liveness_on_failure envD0 envD0).1 (fun _ => ⟨"boom", rfl⟩) Sys.init w1
      (Step.statusCallCancel Sys.init statusCause rfl rfl)⟩

/-- C8: the collector is one select loop — every receive happens with the
collector looping and leaves it looping with the result appended to its
output; observing cancellation requires the token to be cancelled, prints
the recorded cause and moves the collector to its terminal state; and from
the terminal state no step resumes the loop or delivers another result. -/
theorem collector_select_loop (envS envD : Nat → CallResult) :
    (∀ s s', Step envS envD .statusSend s s' →
      s.col = .loop ∧ s'.col = .loop ∧ ∃ m, s'.received = s.received ++ [m]) ∧
    (∀ s s', Step envS envD .delaySend s s' →
      s.col = .loop ∧ s'.col = .loop ∧ ∃ m, s'.received = s.received ++ [m]) ∧
    (∀ s s', Step envS envD .colCancel s s' →
      s'.col = .done ∧ s'.colCause = s.token.contextCause ∧ s.token.cancelled = true) ∧
    (∀ l s s', Step envS envD l s s' → s.col = .done →
      s'.col = .done ∧ s'.received = s.received) := by
  refine ⟨?_, ?_, ?_, ?_⟩
  · intro s s' h
    cases h with
    | statusSend s m hpc hcol => exact ⟨hcol, hcol, m, rfl⟩
  · intro s s' h
    cases h with
    | delaySend s m hpc hcol => exact ⟨hcol, hcol, m, rfl⟩
  · intro s s' h
    cases h with
    | colCancel s hcol hc => exact ⟨rfl, rfl, hc⟩
  · intro l s s' h hdone
    exact step_done_frozen h hdone

/-- Witness for C8 at a concrete step: from `trace2` (token cancelled by the
delay worker) the collector observes cancellation, prints the recorded cause
and becomes done. -/
theorem collector_select_loop_witness :
    Step envS0 envD0 Label.colCancel trace2 trace2c ∧
    (trace2c.col = CollectorPC.done ∧ trace2c.colCause = trace2.token.contextCause ∧
      trace2.token.cancelled = true) :=
  ⟨Step.colCancel trace2 rfl rfl,
    (collector_select_loop envS0 envD0).2.2.1 trace2 trace2c (Step.colCancel trace2 rfl rfl)⟩

/-- C9: storing a value in a derived context and extracting it immediately
returns that value with ok = true, for each of the three store/extract pairs
of the repository. -/
theorem context_roundtrip (ctx : Context) (l : Level) (g u : String) :
    LogLevelFromContext (ContextWithLogLevel ctx l) = (l, true) ∧
    guidFromContext (contextWithGUID ctx g) = (g, true) ∧
    UserFromContext (ContextWithUser ctx u) = (u, true) :=
  ⟨rfl, rfl, rfl⟩

/-- C10: the handler produced by `Timeout ms` calls the wrapped handler with
the incoming request itself — the timeout-derived context is never attached
to the request, so the wrapped handler observes exactly the original request
(and hence its original context, with no timeout in effect). -/
theorem timeout_frames_request {ρ σ : Type} (ms : Nat) (h : Request ρ → σ)
    (r : Request ρ) : Timeout ms h r = h r := rfl
